/-
  Verification of the forecasting-demo core of the portfolio application
  (src/portfolio.py): accuracy metrics, data preparation, horizon
  conversion, the Simple Trend (linear fallback) forecaster, outer-merge
  of actuals with forecasts, non-negativity clipping, and per-group
  iteration.

  Numeric values are embedded as rationals, timestamps as integer day
  ordinals (a calendar date additionally carries its year and month for
  the monthly-horizon computation).
-/
import Mathlib

namespace Portfolio

/-- Arithmetic mean, as used by np.mean; the empty list yields 0
(division by zero in the rationals). -/
def mean (l : List ℚ) : ℚ := l.sum / l.length

/-- np.finfo(np.float64).eps, the machine epsilon of IEEE float64. -/
def eps64 : ℚ := 1 / 2 ^ 52

/-- safe_mape (src/portfolio.py:316-320):
mean(|y_true - y_pred| / max(|y_true|, eps)) * 100 with eps the float64
machine epsilon. -/
def safe_mape (y_true y_pred : List ℚ) : ℚ :=
  mean ((y_true.zip y_pred).map (fun p => |p.1 - p.2| / max |p.1| eps64)) * 100

/-- mean_absolute_percentage_error (src/portfolio.py:345-348):
mean(|y_true - y_pred| / max(|y_true|, 1)) * 100.  This is the function
the forecasting accuracy section calls (src/portfolio.py:735, 755). -/
def mean_absolute_percentage_error (y_true y_pred : List ℚ) : ℚ :=
  mean ((y_true.zip y_pred).map (fun p => |p.1 - p.2| / max |p.1| 1)) * 100

/-- Sum of squared residuals, ss_res of simple_r2 (src/portfolio.py:329). -/
def ss_res (y_true y_pred : List ℚ) : ℚ :=
  ((y_true.zip y_pred).map (fun p => (p.1 - p.2) ^ 2)).sum

/-- Total sum of squares, ss_tot of simple_r2 (src/portfolio.py:330). -/
def ss_tot (y_true : List ℚ) : ℚ :=
  (y_true.map (fun v => (v - mean y_true) ^ 2)).sum

/-- simple_r2 (src/portfolio.py:326-331):
1 - ss_res/ss_tot when ss_tot is nonzero, else 0. -/
def simple_r2 (y_true y_pred : List ℚ) : ℚ :=
  if ss_tot y_true ≠ 0 then 1 - ss_res y_true y_pred / ss_tot y_true else 0

/-- One raw row of the uploaded dataset, restricted to the chosen date and
value columns: the date cell is `some d` (day ordinal) when
pd.to_datetime can parse it and `none` otherwise; the value cell is
`none` when missing (NaN). -/
abbrev RawRow : Type := Option ℤ × Option ℚ

/-- The data-preparation step (src/portfolio.py:441-459).
pd.to_datetime is called with its default errors behaviour, so it raises
as soon as any cell of the date column is unparseable; the enclosing
try/except then reports "Error preparing data" and stops the action.
When every date parses, rows with a missing value are dropped
(df.dropna()) and the remainder is sorted by date ascending
(df.sort_values, a stable sort). -/
def prepare_data (rows : List RawRow) : Except String (List (ℤ × ℚ)) :=
  if (rows.map Prod.fst).all Option.isSome then
    Except.ok
      (List.insertionSort (fun a b : ℤ × ℚ => a.1 ≤ b.1)
        (rows.filterMap (fun r =>
          match r with
          | (some d, some v) => some (d, v)
          | _ => none)))
  else Except.error "Error preparing data"

/-- A calendar date: the day ordinal (for day arithmetic) together with
its year and month (for the monthly-horizon computation). -/
structure SDate where
  ord : ℤ
  year : ℤ
  month : ℤ
deriving DecidableEq

/-- The "Frequency" radio selection (src/portfolio.py:484-486). -/
inductive Freq where
  | daily
  | weekly
  | monthly
deriving DecidableEq

/-- len(pd.date_range(start=s, end=e, freq=\x27D\x27)): the number of
daily stamps from s through e inclusive (0 when e is before s). -/
def date_range_len (s e : ℤ) : ℕ :=
  if s ≤ e then (e - s).toNat + 1 else 0

/-- Horizon computation (src/portfolio.py:491-504): Daily uses the
inclusive day-range length minus 1, Weekly divides that length by 7,
Monthly uses the calendar-month difference ignoring day-of-month; the
result is floored at 1 by max(1, horizon). -/
def computeHorizon (freq : Freq) (last fcEnd : SDate) : ℤ :=
  let h : ℤ :=
    match freq with
    | Freq.daily => (date_range_len last.ord fcEnd.ord : ℤ) - 1
    | Freq.weekly => (date_range_len last.ord fcEnd.ord : ℤ) / 7
    | Freq.monthly =>
        (fcEnd.year - last.year) * 12 + (fcEnd.month - last.month)
  max 1 h

/-- One row of a prepared single-item series: day ordinal ds and value y. -/
structure TSRow where
  ds : ℤ
  y : ℚ
deriving DecidableEq

/-- One row of a merged forecast result frame: ds plus the optional
observed value y and the optional forecast columns yhat, yhat_lower,
yhat_upper (absent columns are NaN in the pandas frame). -/
structure FRow where
  ds : ℤ
  y : Option ℚ
  yhat : Option ℚ
  yhat_lower : Option ℚ
  yhat_upper : Option ℚ
deriving DecidableEq

/-- Minimum of a list of day ordinals (ds.min()); 0 for the empty list,
which the code never reaches (the fallback path requires at least 2 rows). -/
def listMinD : List ℤ → ℤ
  | [] => 0
  | h :: t => t.foldl min h

/-- np.polyfit(x, y, 1): the ordinary-least-squares slope and intercept,
in closed form.  (In the degenerate case where all x coincide the
determinant is 0 and rational division by zero makes the slope 0.) -/
def polyfit1 (x y : List ℚ) : ℚ × ℚ :=
  let n : ℚ := x.length
  let sx := x.sum
  let sy := y.sum
  let sxx := (x.map (fun v => v * v)).sum
  let sxy := ((x.zip y).map (fun p => p.1 * p.2)).sum
  let slope := (n * sxy - sx * sy) / (n * sxx - sx * sx)
  (slope, (sy - slope * sx) / n)

/-- The fitted linear-trend value at day ordinal d
(src/portfolio.py:524-531): the trend is fit against
elapsed-days-since-first-observation and evaluated at d's elapsed days. -/
def trend_value (data : List TSRow) (d : ℤ) : ℚ :=
  let dsMin := listMinD (data.map (fun r => r.ds))
  let t := polyfit1
    (data.map (fun r => ((r.ds - dsMin : ℤ) : ℚ)))
    (data.map (fun r => r.y))
  t.1 * ((d - dsMin : ℤ) : ℚ) + t.2

/-- pd.date_range(start=last_date, periods=horizon+1, freq=\x27D\x27)[1:]
(src/portfolio.py:528): the horizon consecutive day ordinals immediately
after last_date. -/
def future_dates (lastDate : ℤ) (horizon : ℕ) : List ℤ :=
  (List.range horizon).map (fun (k : ℕ) => lastDate + 1 + (k : ℤ))

/-- The future_df of the Simple Trend path (src/portfolio.py:534-539):
for each future date, yhat is the trend value, the band is a fixed
±10 percent (yhat * 0.9 and yhat * 1.1); no observed value. -/
def simple_trend_future (data : List TSRow) (lastDate : ℤ) (horizon : ℕ) :
    List FRow :=
  (future_dates lastDate horizon).map (fun d =>
    ⟨d, none, some (trend_value data d),
      some (trend_value data d * (9 / 10)),
      some (trend_value data d * (11 / 10))⟩)

/-- pd.merge(item_data, future_df, on=\x27ds\x27, how=\x27outer\x27)
(src/portfolio.py:541): every historical row keeps its observed y and
picks up the forecast columns of a future row with the same ds if one
exists; future rows whose ds matches no historical row are appended with
an absent observed value. -/
def merge_outer (hist : List TSRow) (fut : List FRow) : List FRow :=
  hist.map (fun r =>
    match fut.find? (fun f => decide (f.ds = r.ds)) with
    | some f => ⟨r.ds, some r.y, f.yhat, f.yhat_lower, f.yhat_upper⟩
    | none => ⟨r.ds, some r.y, none, none, none⟩) ++
  fut.filter (fun f => ! hist.any (fun r => decide (r.ds = f.ds)))

/-- The merged result of the Simple Trend path for one series
(src/portfolio.py:521-543). -/
def simple_trend_forecast (data : List TSRow) (lastDate : ℤ) (horizon : ℕ) :
    List FRow :=
  merge_outer data (simple_trend_future data lastDate horizon)

/-- Series.clip(lower=0) on one optional cell: absent stays absent,
present values are raised to at least 0. -/
def clip0 : Option ℚ → Option ℚ
  | none => none
  | some v => some (max v 0)

/-- The non-negativity pass (src/portfolio.py:620-622): yhat, yhat_lower
and yhat_upper are each clipped at 0; the observed column is untouched. -/
def clip_forecast (rows : List FRow) : List FRow :=
  rows.map (fun r => ⟨r.ds, r.y, clip0 r.yhat, clip0 r.yhat_lower, clip0 r.yhat_upper⟩)

/-- The k-th future row of the Simple Trend result after the
non-negativity pass: the day ordinal lastDate + 1 + k, no observed value,
and the clipped point estimate with its clipped ±10 percent band. -/
def clipped_future_row (data : List TSRow) (lastDate : ℤ) (k : ℕ) : FRow :=
  ⟨lastDate + 1 + (k : ℤ), none,
    some (max (trend_value data (lastDate + 1 + (k : ℤ))) 0),
    some (max (trend_value data (lastDate + 1 + (k : ℤ)) * (9 / 10)) 0),
    some (max (trend_value data (lastDate + 1 + (k : ℤ)) * (11 / 10)) 0)⟩

/-- combined_result.dropna(subset=[\x27y\x27, \x27yhat\x27])
(src/portfolio.py:725): the rows carrying both an observed value and a
point estimate, over which the accuracy metrics are computed. -/
def accuracy_overlap (rows : List FRow) : List FRow :=
  rows.filter (fun r => r.y.isSome && r.yhat.isSome)

/-- The gate in front of the accuracy-metrics section
(src/portfolio.py:726): metrics are rendered only when the
observed/fitted overlap is nonempty. -/
def metrics_section_shown (rows : List FRow) : Bool :=
  decide (0 < (accuracy_overlap rows).length)

/-- The "Forecasting method" radio selection (src/portfolio.py:464-466). -/
inductive Method where
  | prophet
  | simpleTrend
deriving DecidableEq

/-- The branch condition selecting the linear fallback
(src/portfolio.py:522, 570):
`if not PROPHET_AVAILABLE or method == "Simple Trend"`. -/
def usesFallback (prophetAvailable : Bool) (m : Method) : Bool :=
  !prophetAvailable || decide (m = Method.simpleTrend)

/-- The method dispatch of one generate action, with the surrounding
try/except (src/portfolio.py:490, 816-817): if the fallback branch is
selected its result is returned; otherwise the Prophet path runs, and an
exception raised inside it is caught and surfaced as a failure message —
it is never converted into a fallback run. -/
def generate (prophetAvailable : Bool) (m : Method)
    (prophetRun : Except String (List FRow)) (fallbackRun : List FRow) :
    Except String (List FRow) :=
  if usesFallback prophetAvailable m then Except.ok fallbackRun else prophetRun

/-- One item group: the label and its filtered (ds, y) rows. -/
structure Group where
  name : String
  rows : List TSRow

/-- The per-item loop of the Simple Trend path (src/portfolio.py:509-543):
each selected item is forecast in turn; an item with fewer than 2 rows is
skipped (warning + continue) and the loop moves on; results are collected
in order. -/
def forecast_groups (gs : List Group) (lastDate : ℤ) (horizon : ℕ) :
    List (String × List FRow) :=
  match gs with
  | [] => []
  | g :: rest =>
    if g.rows.length < 2 then forecast_groups rest lastDate horizon
    else (g.name, simple_trend_forecast g.rows lastDate horizon) ::
      forecast_groups rest lastDate horizon

/-- The Simple Trend pipeline from the frequency selection to the clipped
merged frame: the frequency enters only through the horizon computation. -/
def run_simple_trend (freq : Freq) (data : List TSRow) (s e : SDate) :
    List FRow :=
  clip_forecast (simple_trend_forecast data s.ord (computeHorizon freq s e).toNat)

/-- Concrete two-row series used by the closed witnesses. -/
def dataEx : List TSRow := [⟨0, 10⟩, ⟨1, 12⟩]

/-- Concrete raw rows with one unparseable date, used by the C2 witnesses. -/
def rawEx : List RawRow := [(some 0, some 1), (none, some 2), (some 3, some 4)]

/-- A sum of nonnegative rationals vanishes exactly when every summand does. -/
theorem sum_nonneg_eq_zero_iff :
    ∀ l : List ℚ, (∀ a ∈ l, 0 ≤ a) → (l.sum = 0 ↔ ∀ a ∈ l, a = 0) := by
  intro l
  induction l with
  | nil => simp
  | cons x t ih =>
    intro h
    have hx : 0 ≤ x := h x (List.mem_cons_self x t)
    have ht : ∀ a ∈ t, 0 ≤ a := fun a ha => h a (List.mem_cons_of_mem x ha)
    have hts : 0 ≤ t.sum := List.sum_nonneg ht
    simp only [List.sum_cons, List.mem_cons]
    constructor
    · intro h0
      have hx0 : x = 0 := by linarith
      have hts0 : t.sum = 0 := by linarith
      intro a ha
      rcases ha with rfl | ha
      · exact hx0
      · exact (ih ht).1 hts0 a ha
    · intro hall
      have hx0 : x = 0 := hall x (Or.inl rfl)
      have hts0 : t.sum = 0 := (ih ht).2 (fun a ha => hall a (Or.inr ha))
      rw [hx0, hts0, add_zero]

/-- Every pair of a list zipped with itself has equal components. -/
theorem zip_self_eq (l : List ℚ) : ∀ p ∈ l.zip l, p.1 = p.2 := by
  induction l with
  | nil => simp
  | cons x t ih =>
    intro p hp
    rw [List.zip_cons_cons] at hp
    rcases List.mem_cons.mp hp with rfl | hp
    · rfl
    · exact ih p hp

/-- Two lists of equal length whose zipped pairs agree componentwise are equal. -/
theorem zip_forall_eq :
    ∀ a b : List ℚ, a.length = b.length → (∀ p ∈ a.zip b, p.1 = p.2) → a = b := by
  intro a
  induction a with
  | nil =>
    intro b hb _
    cases b with
    | nil => rfl
    | cons y s => simp at hb
  | cons x t ih =>
    intro b hb h
    cases b with
    | nil => simp at hb
    | cons y s =>
      have hx : x = y :=
        h (x, y) (by rw [List.zip_cons_cons]; exact List.mem_cons_self _ _)
      have hts : t = s := by
        refine ih s (by simpa using hb) (fun p hp => h p ?_)
        rw [List.zip_cons_cons]
        exact List.mem_cons_of_mem _ hp
      rw [hx, hts]

/-- C1 (counterexample): on observed [1/2] and estimate [0] the accuracy
evaluator's MAPE function (denominator max(|observed|, 1)) yields 50,
while the machine-epsilon formula of the claim (safe_mape) yields 100, so
the evaluator does not implement the claimed formula. -/
theorem C1_counterexample :
    mean_absolute_percentage_error [(1 : ℚ) / 2] [0] = 50 ∧
      safe_mape [(1 : ℚ) / 2] [0] = 100 ∧ (50 : ℚ) ≠ 100 := by
  refine ⟨?_, ?_, by norm_num⟩
  · have h1 : max |(1 : ℚ) / 2| 1 = 1 := by
      rw [abs_of_nonneg (by norm_num)]
      exact max_eq_right (by norm_num)
    simp only [mean_absolute_percentage_error, mean, List.zip_cons_cons,
      List.zip_nil_right, List.map_cons, List.map_nil, List.sum_cons,
      List.sum_nil, List.length_cons, List.length_nil]
    rw [h1, sub_zero, abs_of_nonneg (by norm_num : (0 : ℚ) ≤ 1 / 2)]
    norm_num
  · have h1 : max |(1 : ℚ) / 2| eps64 = 1 / 2 := by
      rw [abs_of_nonneg (by norm_num)]
      exact max_eq_left (by norm_num [eps64])
    simp only [safe_mape, mean, List.zip_cons_cons, List.zip_nil_right,
      List.map_cons, List.map_nil, List.sum_cons, List.sum_nil,
      List.length_cons, List.length_nil]
    rw [h1, sub_zero, abs_of_nonneg (by norm_num : (0 : ℚ) ≤ 1 / 2)]
    norm_num

/-- C1 (amended): the forecasting accuracy evaluator's MAPE is the mean of
|observed − estimate| / max(|observed|, 1) × 100: the denominator floor is
the constant 1, not machine epsilon, so it is strictly positive (no
division by zero at observed = 0) and the MAPE is always nonnegative. -/
theorem C1_amended (y_true y_pred : List ℚ) :
    mean_absolute_percentage_error y_true y_pred =
      ((y_true.zip y_pred).map (fun p => |p.1 - p.2| / max |p.1| 1)).sum /
        (((y_true.zip y_pred).length : ℚ)) * 100 ∧
      0 ≤ mean_absolute_percentage_error y_true y_pred ∧
      ∀ p ∈ y_true.zip y_pred, (0 : ℚ) < max |p.1| 1 := by
  refine ⟨?_, ?_, ?_⟩
  · unfold mean_absolute_percentage_error mean
    rw [List.length_map]
  · unfold mean_absolute_percentage_error mean
    have hnn : ∀ a ∈ (y_true.zip y_pred).map (fun p => |p.1 - p.2| / max |p.1| 1),
        (0 : ℚ) ≤ a := by
      intro a ha
      rcases List.mem_map.mp ha with ⟨p, _, rfl⟩
      exact div_nonneg (abs_nonneg _) (le_trans zero_le_one (le_max_right _ _))
    exact mul_nonneg
      (div_nonneg (List.sum_nonneg hnn) (by positivity)) (by norm_num)
  · intro p _
    exact lt_of_lt_of_le one_pos (le_max_right _ _)

/-- C1 (witness): the amended MAPE characterization evaluated on the
concrete pair observed [0, 3], estimate [1, 3]. -/
theorem C1_witness :
    mean_absolute_percentage_error [(0 : ℚ), 3] [(1 : ℚ), 3] =
      (([(0 : ℚ), 3].zip [(1 : ℚ), 3]).map
          (fun p => |p.1 - p.2| / max |p.1| 1)).sum /
        ((([(0 : ℚ), 3].zip [(1 : ℚ), 3]).length : ℚ)) * 100 ∧
      0 ≤ mean_absolute_percentage_error [(0 : ℚ), 3] [(1 : ℚ), 3] ∧
      ∀ p ∈ [(0 : ℚ), 3].zip [(1 : ℚ), 3], (0 : ℚ) < max |p.1| 1 :=
  C1_amended [0, 3] [1, 3]

/-- C5 (counterexample): with all observed values identical and the
estimates equal to the observations everywhere (y_true = y_pred = [5, 5]),
simple_r2 returns 0, not 1, because ss_tot degenerates to 0; so "R² = 1
exactly when estimates equal observations everywhere" fails. -/
theorem C5_counterexample : simple_r2 [(5 : ℚ), 5] [5, 5] ≠ 1 := by
  have htot : ss_tot [(5 : ℚ), 5] = 0 := by
    simp [ss_tot, mean]
  simp [simple_r2, htot]

/-- C5 (amended): for equal-length inputs, when ss_tot is nonzero,
simple_r2 equals 1 exactly when the estimates equal the observations
everywhere; in the degenerate case ss_tot = 0 (all observed values
identical) simple_r2 is 0 even if the estimates match exactly. -/
theorem C5_amended (y_true y_pred : List ℚ)
    (hlen : y_true.length = y_pred.length) :
    (ss_tot y_true ≠ 0 → (simple_r2 y_true y_pred = 1 ↔ y_true = y_pred)) ∧
      (ss_tot y_true = 0 → simple_r2 y_true y_pred = 0) := by
  constructor
  · intro htot
    unfold simple_r2
    rw [if_pos htot]
    have hsq : ∀ a ∈ (y_true.zip y_pred).map (fun p => (p.1 - p.2) ^ 2),
        (0 : ℚ) ≤ a := by
      intro a ha
      rcases List.mem_map.mp ha with ⟨p, _, rfl⟩
      exact sq_nonneg _
    constructor
    · intro h1
      have hres : ss_res y_true y_pred = 0 := by
        have hdiv : ss_res y_true y_pred / ss_tot y_true = 0 := by linarith
        rcases div_eq_zero_iff.mp hdiv with h | h
        · exact h
        · exact absurd h htot
      have hall := (sum_nonneg_eq_zero_iff _ hsq).1 hres
      refine zip_forall_eq y_true y_pred hlen (fun p hp => ?_)
      have := hall ((p.1 - p.2) ^ 2) (List.mem_map_of_mem _ hp)
      have hsub : p.1 - p.2 = 0 := by
        exact pow_eq_zero_iff (two_ne_zero) |>.mp this
      linarith
    · intro heq
      subst heq
      have hres : ss_res y_true y_true = 0 := by
        refine List.sum_eq_zero (fun a ha => ?_)
        rcases List.mem_map.mp ha with ⟨p, hp, rfl⟩
        rw [zip_self_eq y_true p hp]
        ring
      rw [hres, zero_div, sub_zero]
  · intro htot
    simp [simple_r2, htot]

/-- C5 (witness): the amended R² characterization evaluated on the
concrete equal-length pair observed [1, 2], estimate [1, 2]. -/
theorem C5_witness :
    ([(1 : ℚ), 2].length = [(1 : ℚ), 2].length) ∧
      ((ss_tot [(1 : ℚ), 2] ≠ 0 →
        (simple_r2 [(1 : ℚ), 2] [(1 : ℚ), 2] = 1 ↔
          [(1 : ℚ), 2] = [(1 : ℚ), 2])) ∧
      (ss_tot [(1 : ℚ), 2] = 0 → simple_r2 [(1 : ℚ), 2] [(1 : ℚ), 2] = 0)) :=
  ⟨rfl, C5_amended [1, 2] [1, 2] rfl⟩

/-- C2 (counterexample): on a dataset whose date column has two parseable
cells and one unparseable cell, the preparation step reports
"Error preparing data" instead of succeeding with the two parseable rows,
so unparseable dates are not excluded row by row. -/
theorem C2_counterexample :
    prepare_data rawEx = Except.error "Error preparing data" ∧
      (Except.error "Error preparing data" :
          Except String (List (ℤ × ℚ))) ≠
        Except.ok [((0 : ℤ), (1 : ℚ)), (3, 4)] := by
  constructor
  · rfl
  · intro h
    exact Except.noConfusion h

/-- C2 (amended): pd.to_datetime is invoked with its default raising
behaviour, so one unparseable date value anywhere in the chosen date
column makes the whole preparation fail with "Error preparing data"
(reported to the user, not a crash); there is no row-level exclusion of
unparseable dates. -/
theorem C2_amended (rows : List RawRow) (r : RawRow) (hr : r ∈ rows)
    (hnone : r.1 = none) :
    prepare_data rows = Except.error "Error preparing data" := by
  unfold prepare_data
  rw [if_neg]
  intro hall
  rw [List.all_eq_true] at hall
  have hmem : r.1 ∈ rows.map Prod.fst := List.mem_map_of_mem Prod.fst hr
  have := hall r.1 hmem
  rw [hnone] at this
  exact Bool.noConfusion this

/-- C2 (witness): the amended preparation-failure statement evaluated on
the concrete dataset rawEx, whose second row has an unparseable date. -/
theorem C2_witness :
    (((none, some 2) : RawRow) ∈ rawEx ∧
        ((none, some 2) : RawRow).1 = (none : Option ℤ)) ∧
      prepare_data rawEx = Except.error "Error preparing data" :=
  ⟨⟨by decide, rfl⟩, C2_amended rawEx (none, some 2) (by decide) rfl⟩

/-- C4 (counterexample): for a 13-day span the code's Weekly horizon is
len(date_range)//7 = 14//7 = 2, while the claimed day-count//7 formula
gives 13//7 = 1 (also after flooring at 1), so the claim's formula is not
the one implemented. -/
theorem C4_counterexample :
    computeHorizon Freq.weekly ⟨0, 2024, 1⟩ ⟨13, 2024, 1⟩ = 2 ∧
      max 1 ((13 : ℤ) / 7) = 1 ∧ (2 : ℤ) ≠ 1 := by
  refine ⟨?_, by decide, by decide⟩
  decide

/-- C4 (amended): whenever the forecast end date is not before the last
observed date, the Weekly horizon equals the inclusive day-range length
(day count + 1) integer-divided by 7, floored at 1; in particular a
10-day span still yields horizon 1. -/
theorem C4_amended (s e : SDate) (h : s.ord ≤ e.ord) :
    computeHorizon Freq.weekly s e = max 1 ((e.ord - s.ord + 1) / 7) := by
  unfold computeHorizon date_range_len
  simp only [if_pos h]
  congr 1
  have hcast : (((e.ord - s.ord).toNat + 1 : ℕ) : ℤ) = e.ord - s.ord + 1 := by
    push_cast
    rw [Int.toNat_of_nonneg (by omega)]
  rw [hcast]

/-- C4 (witness): the amended Weekly horizon formula evaluated on a
10-day span (ordinals 0 through 10), where it yields max(1, 11//7) = 1. -/
theorem C4_witness :
    ((0 : ℤ) ≤ 10) ∧
      computeHorizon Freq.weekly ⟨0, 2024, 1⟩ ⟨10, 2024, 1⟩ =
        max 1 (((10 : ℤ) - 0 + 1) / 7) :=
  ⟨by decide, C4_amended ⟨0, 2024, 1⟩ ⟨10, 2024, 1⟩ (by decide)⟩

/-- C6 (counterexample): with Prophet importable and the user-selected
method "Simple Trend", the fallback branch is taken, so the fallback is
not selected only by the dependency's absence (the claimed condition
!PROPHET_AVAILABLE is false there). -/
theorem C6_counterexample :
    usesFallback true Method.simpleTrend = true ∧ (!(true : Bool)) = false := by
  decide

/-- C6 (amended): the fallback branch is taken exactly when Prophet is
not importable or the user selected "Simple Trend"; when the Prophet path
is taken, a runtime failure inside it is surfaced as that failure and is
never converted into a fallback run, while either fallback trigger
returns the linear-trend result. -/
theorem C6_amended :
    (∀ (pa : Bool) (m : Method),
      usesFallback pa m = true ↔ (pa = false ∨ m = Method.simpleTrend)) ∧
      ∀ (e : String) (fb : List FRow) (prun : Except String (List FRow)),
        generate false Method.prophet prun fb = Except.ok fb ∧
        generate true Method.simpleTrend prun fb = Except.ok fb ∧
        generate true Method.prophet (Except.error e) fb = Except.error e := by
  constructor
  · intro pa m
    cases pa <;> cases m <;> simp [usesFallback]
  · intro e fb prun
    refine ⟨?_, ?_, ?_⟩ <;> simp [generate, usesFallback]

/-- C6 (witness): the amended fallback-selection statement evaluated at a
concrete failure message, fallback frame and Prophet outcome. -/
theorem C6_witness :
    (usesFallback true Method.prophet = true ↔
      (true = false ∨ Method.prophet = Method.simpleTrend)) ∧
      (generate false Method.prophet (Except.error "boom") [] =
        Except.ok ([] : List FRow) ∧
      generate true Method.simpleTrend (Except.error "boom") [] =
        Except.ok ([] : List FRow) ∧
      generate true Method.prophet (Except.error "boom") [] =
        Except.error "boom") :=
  ⟨C6_amended.1 true Method.prophet, C6_amended.2 "boom" [] (Except.error "boom")⟩

/-- C8 (confirmed): the Monthly horizon is the calendar-month difference
(end.year − start.year) × 12 + (end.month − start.month), ignoring
day-of-month, floored at 1; the span 2024-01-01 (ordinal 0) to 2024-04-01
(ordinal 91) yields horizon 3. -/
theorem C8_monthly :
    (∀ s e : SDate,
      computeHorizon Freq.monthly s e =
        max 1 ((e.year - s.year) * 12 + (e.month - s.month))) ∧
      computeHorizon Freq.monthly ⟨0, 2024, 1⟩ ⟨91, 2024, 4⟩ = 3 := by
  constructor
  · intro s e
    rfl
  · decide

/-- Every row of the generated future frame lies strictly after the last
observed date. -/
theorem mem_simple_trend_future {data : List TSRow} {lastDate : ℤ}
    {horizon : ℕ} {f : FRow}
    (hf : f ∈ simple_trend_future data lastDate horizon) : lastDate < f.ds := by
  rcases List.mem_map.mp hf with ⟨d, hd, rfl⟩
  rcases List.mem_map.mp hd with ⟨k, _, rfl⟩
  show lastDate < lastDate + 1 + (k : ℤ)
  omega

/-- When historical and future dates are disjoint, the outer merge is the
historical rows (observed value, no forecast columns) followed by the
future rows unchanged. -/
theorem merge_outer_disjoint (hist : List TSRow) (fut : List FRow)
    (h : ∀ r ∈ hist, ∀ f ∈ fut, r.ds ≠ f.ds) :
    merge_outer hist fut =
      hist.map (fun r => (⟨r.ds, some r.y, none, none, none⟩ : FRow)) ++ fut := by
  unfold merge_outer
  congr 1
  · apply List.map_congr_left
    intro r hr
    have hfind : fut.find? (fun f => decide (f.ds = r.ds)) = none := by
      rw [List.find?_eq_none]
      intro f hf
      simp only [decide_eq_true_eq]
      exact fun he => h r hr f hf he.symm
    rw [hfind]
  · rw [List.filter_eq_self]
    intro f hf
    simp only [Bool.not_eq_true', List.any_eq_false, decide_eq_true_eq]
    intro r hr
    exact h r hr f hf

/-- With every historical date at or before last_date, the clipped Simple
Trend result is the historical rows followed by the horizon clipped
future rows. -/
theorem clip_simple_trend_decomp (data : List TSRow) (lastDate : ℤ)
    (horizon : ℕ) (hdata : ∀ r ∈ data, r.ds ≤ lastDate) :
    clip_forecast (simple_trend_forecast data lastDate horizon) =
      data.map (fun r => (⟨r.ds, some r.y, none, none, none⟩ : FRow)) ++
        (List.range horizon).map (clipped_future_row data lastDate) := by
  have hdisj : ∀ r ∈ data, ∀ f ∈ simple_trend_future data lastDate horizon,
      r.ds ≠ f.ds := by
    intro r hr f hf
    have h1 := mem_simple_trend_future hf
    have h2 := hdata r hr
    omega
  unfold simple_trend_forecast
  rw [merge_outer_disjoint data _ hdisj]
  unfold clip_forecast
  rw [List.map_append]
  congr 1
  · rw [List.map_map]
    rfl
  · unfold simple_trend_future future_dates
    rw [List.map_map, List.map_map]
    rfl

/-- Filtering the clipped Simple Trend result to strictly-future dates
keeps exactly the horizon clipped future rows. -/
theorem clip_filter_future (data : List TSRow) (lastDate : ℤ) (horizon : ℕ)
    (hdata : ∀ r ∈ data, r.ds ≤ lastDate) :
    (clip_forecast (simple_trend_forecast data lastDate horizon)).filter
        (fun r => decide (lastDate < r.ds)) =
      (List.range horizon).map (clipped_future_row data lastDate) := by
  rw [clip_simple_trend_decomp data lastDate horizon hdata, List.filter_append]
  have h1 : (data.map
      (fun r => (⟨r.ds, some r.y, none, none, none⟩ : FRow))).filter
      (fun r => decide (lastDate < r.ds)) = [] := by
    rw [List.filter_eq_nil_iff]
    intro a ha
    rcases List.mem_map.mp ha with ⟨r, hr, rfl⟩
    simp only [decide_eq_true_eq]
    exact not_lt.mpr (hdata r hr)
  have h2 : ((List.range horizon).map (clipped_future_row data lastDate)).filter
      (fun r => decide (lastDate < r.ds)) =
      (List.range horizon).map (clipped_future_row data lastDate) := by
    rw [List.filter_eq_self]
    intro a ha
    rcases List.mem_map.mp ha with ⟨k, _, rfl⟩
    simp only [decide_eq_true_eq]
    show lastDate < lastDate + 1 + (k : ℤ)
    omega
  rw [h1, h2, List.nil_append]

/-- After clipping at 0, the fixed ±10 percent band around any fitted
value is ordered: 0 ≤ clipped lower ≤ clipped point ≤ clipped upper. -/
theorem clip_band (fc : ℚ) :
    0 ≤ max (fc * (9 / 10)) 0 ∧
      max (fc * (9 / 10)) 0 ≤ max fc 0 ∧
      max fc 0 ≤ max (fc * (11 / 10)) 0 := by
  rcases le_or_lt 0 fc with hpos | hneg
  · have h1 : fc * (9 / 10) ≤ fc := by nlinarith
    have h2 : fc ≤ fc * (11 / 10) := by nlinarith
    exact ⟨le_max_right _ _, max_le_max h1 le_rfl, max_le_max h2 le_rfl⟩
  · have h1 : fc * (9 / 10) ≤ 0 := by nlinarith
    have h2 : fc ≤ 0 := le_of_lt hneg
    have h3 : fc * (11 / 10) ≤ 0 := by nlinarith
    rw [max_eq_right h1, max_eq_right h2, max_eq_right h3]
    norm_num

/-- C3 (confirmed): for any prepared series whose dates do not exceed the
last observed date, with at least 2 rows and horizon ≥ 1, the clipped
Simple Trend result contains exactly horizon strictly-future rows, and
every row carrying a point estimate satisfies
0 ≤ lower bound ≤ point estimate ≤ upper bound. -/
theorem C3_fallback (data : List TSRow) (lastDate : ℤ) (horizon : ℕ)
    (hlen : 2 ≤ data.length) (hh : 1 ≤ horizon)
    (hdata : ∀ r ∈ data, r.ds ≤ lastDate) :
    ((clip_forecast (simple_trend_forecast data lastDate horizon)).filter
        (fun r => decide (lastDate < r.ds))).length = horizon ∧
      ∀ r ∈ clip_forecast (simple_trend_forecast data lastDate horizon),
        r.yhat.isSome = true →
          0 ≤ r.yhat_lower.getD 0 ∧
            r.yhat_lower.getD 0 ≤ r.yhat.getD 0 ∧
            r.yhat.getD 0 ≤ r.yhat_upper.getD 0 := by
  constructor
  · rw [clip_filter_future data lastDate horizon hdata, List.length_map,
      List.length_range]
  · intro r hr hsome
    rw [clip_simple_trend_decomp data lastDate horizon hdata] at hr
    rcases List.mem_append.mp hr with h | h
    · rcases List.mem_map.mp h with ⟨t, _, rfl⟩
      exact absurd hsome (by simp)
    · rcases List.mem_map.mp h with ⟨k, _, rfl⟩
      have hband := clip_band (trend_value data (lastDate + 1 + (k : ℤ)))
      simpa [clipped_future_row] using hband

/-- C3 (witness): the fallback count-and-band property evaluated on the
concrete two-row series dataEx with last date 1 and horizon 2. -/
theorem C3_witness :
    (2 ≤ dataEx.length ∧ 1 ≤ 2 ∧ ∀ r ∈ dataEx, r.ds ≤ (1 : ℤ)) ∧
      ((clip_forecast (simple_trend_forecast dataEx 1 2)).filter
          (fun r => decide ((1 : ℤ) < r.ds))).length = 2 ∧
      ∀ r ∈ clip_forecast (simple_trend_forecast dataEx 1 2),
        r.yhat.isSome = true →
          0 ≤ r.yhat_lower.getD 0 ∧
            r.yhat_lower.getD 0 ≤ r.yhat.getD 0 ∧
            r.yhat.getD 0 ≤ r.yhat_upper.getD 0 :=
  ⟨⟨by decide, by decide, by decide⟩,
    C3_fallback dataEx 1 2 (by decide) (by decide) (by decide)⟩

/-- C7 (confirmed): in the clipped Simple Trend result, point estimates
sit only on strictly-future dates and observed values only on historical
dates, no row carries both, the observed/fitted overlap is empty, and the
accuracy-metrics section (gated on a nonempty overlap of the
end-date-filtered frame) is not shown. -/
theorem C7_no_metrics (data : List TSRow) (lastDate fcEnd : ℤ) (horizon : ℕ)
    (hdata : ∀ r ∈ data, r.ds ≤ lastDate) :
    (∀ r ∈ clip_forecast (simple_trend_forecast data lastDate horizon),
      (r.yhat.isSome = true → lastDate < r.ds) ∧
        (r.y.isSome = true → r.ds ≤ lastDate) ∧
        ¬(r.y.isSome = true ∧ r.yhat.isSome = true)) ∧
      accuracy_overlap
          (clip_forecast (simple_trend_forecast data lastDate horizon)) = [] ∧
      metrics_section_shown
        ((clip_forecast (simple_trend_forecast data lastDate horizon)).filter
          (fun r => decide (r.ds ≤ fcEnd))) = false := by
  have hrows : ∀ r ∈ clip_forecast (simple_trend_forecast data lastDate horizon),
      (r.yhat.isSome = true → lastDate < r.ds) ∧
        (r.y.isSome = true → r.ds ≤ lastDate) ∧
        ¬(r.y.isSome = true ∧ r.yhat.isSome = true) := by
    intro r hr
    rw [clip_simple_trend_decomp data lastDate horizon hdata] at hr
    rcases List.mem_append.mp hr with h | h
    · rcases List.mem_map.mp h with ⟨t, ht, rfl⟩
      refine ⟨fun hs => absurd hs (by simp), fun _ => hdata t ht, ?_⟩
      rintro ⟨-, hs⟩
      exact absurd hs (by simp)
    · rcases List.mem_map.mp h with ⟨k, _, rfl⟩
      refine ⟨fun _ => ?_, fun hs => absurd hs (by simp [clipped_future_row]), ?_⟩
      · show lastDate < lastDate + 1 + (k : ℤ)
        omega
      · rintro ⟨hs, -⟩
        exact absurd hs (by simp [clipped_future_row])
  have hov : accuracy_overlap
      (clip_forecast (simple_trend_forecast data lastDate horizon)) = [] := by
    unfold accuracy_overlap
    rw [List.filter_eq_nil_iff]
    intro r hr
    have hno := (hrows r hr).2.2
    simp only [Bool.and_eq_true]
    exact hno
  have hovf : accuracy_overlap
      ((clip_forecast (simple_trend_forecast data lastDate horizon)).filter
        (fun r => decide (r.ds ≤ fcEnd))) = [] := by
    unfold accuracy_overlap
    rw [List.filter_eq_nil_iff]
    intro r hr
    have hno := (hrows r (List.mem_of_mem_filter hr)).2.2
    simp only [Bool.and_eq_true]
    exact hno
  refine ⟨hrows, hov, ?_⟩
  unfold metrics_section_shown
  rw [hovf]
  simp

/-- C7 (witness): the empty-overlap property evaluated on the concrete
series dataEx with last date 1, horizon 2 and end date 3. -/
theorem C7_witness :
    (∀ r ∈ dataEx, r.ds ≤ (1 : ℤ)) ∧
      (∀ r ∈ clip_forecast (simple_trend_forecast dataEx 1 2),
        (r.yhat.isSome = true → (1 : ℤ) < r.ds) ∧
          (r.y.isSome = true → r.ds ≤ (1 : ℤ)) ∧
          ¬(r.y.isSome = true ∧ r.yhat.isSome = true)) ∧
      accuracy_overlap (clip_forecast (simple_trend_forecast dataEx 1 2)) = [] ∧
      metrics_section_shown
        ((clip_forecast (simple_trend_forecast dataEx 1 2)).filter
          (fun r => decide (r.ds ≤ (3 : ℤ)))) = false :=
  ⟨by decide, C7_no_metrics dataEx 1 3 2 (by decide)⟩

/-- The per-item loop equals filtering out the under-2-row groups and
forecasting each remaining group independently, in order. -/
theorem forecast_groups_filter_map (gs : List Group) (lastDate : ℤ)
    (horizon : ℕ) :
    forecast_groups gs lastDate horizon =
      (gs.filter (fun g => decide (2 ≤ g.rows.length))).map
        (fun g => (g.name, simple_trend_forecast g.rows lastDate horizon)) := by
  induction gs with
  | nil => rfl
  | cons g rest ih =>
    by_cases h : g.rows.length < 2
    · have hd : decide (2 ≤ g.rows.length) = false := by
        simp only [decide_eq_false_iff_not]
        omega
      simp [forecast_groups, if_pos h, List.filter_cons, hd, ih]
    · have hd : decide (2 ≤ g.rows.length) = true := by
        simp only [decide_eq_true_eq]
        omega
      simp [forecast_groups, if_neg h, List.filter_cons, hd, ih]

/-- C9 (confirmed): a leading group with fewer than 2 rows is skipped and
the remaining groups are still forecast, and in general the per-item loop
forecasts each group with at least 2 rows independently (each result
depends only on that group's own rows) and concatenates the results in
order. -/
theorem C9_group_iteration (A : Group) (gs : List Group) (lastDate : ℤ)
    (horizon : ℕ) (hA : A.rows.length < 2) :
    forecast_groups (A :: gs) lastDate horizon =
        forecast_groups gs lastDate horizon ∧
      ∀ gs2 : List Group,
        forecast_groups gs2 lastDate horizon =
          (gs2.filter (fun g => decide (2 ≤ g.rows.length))).map
            (fun g => (g.name, simple_trend_forecast g.rows lastDate horizon)) := by
  constructor
  · show (if A.rows.length < 2 then forecast_groups gs lastDate horizon
      else (A.name, simple_trend_forecast A.rows lastDate horizon) ::
        forecast_groups gs lastDate horizon) = forecast_groups gs lastDate horizon
    rw [if_pos hA]
  · intro gs2
    exact forecast_groups_filter_map gs2 lastDate horizon

/-- C9 (witness): the skip-and-continue property evaluated on a concrete
one-row group "A" followed by the two-row group "B". -/
theorem C9_witness :
    ((Group.mk "A" [⟨0, 5⟩]).rows.length < 2) ∧
      (forecast_groups [Group.mk "A" [⟨0, 5⟩], Group.mk "B" dataEx] 1 2 =
          forecast_groups [Group.mk "B" dataEx] 1 2 ∧
        ∀ gs2 : List Group,
          forecast_groups gs2 1 2 =
            (gs2.filter (fun g => decide (2 ≤ g.rows.length))).map
              (fun g => (g.name, simple_trend_forecast g.rows 1 2))) :=
  ⟨by decide,
    C9_group_iteration (Group.mk "A" [⟨0, 5⟩]) [Group.mk "B" dataEx] 1 2
      (by decide)⟩

/-- C10 (confirmed): for every frequency class, the strictly-future rows
of the Simple Trend pipeline carry the horizon consecutive day ordinals
immediately after the last observed date (daily spacing, regardless of
Weekly/Monthly selection), and the frequency influences the result only
through the horizon count. -/
theorem C10_daily_spacing (freq : Freq) (data : List TSRow) (s e : SDate)
    (hdata : ∀ r ∈ data, r.ds ≤ s.ord) :
    ((run_simple_trend freq data s e).filter
        (fun r => decide (s.ord < r.ds))).map (fun r => r.ds) =
      (List.range (computeHorizon freq s e).toNat).map
        (fun (k : ℕ) => s.ord + 1 + (k : ℤ)) ∧
      ∀ f2 : Freq, computeHorizon freq s e = computeHorizon f2 s e →
        run_simple_trend freq data s e = run_simple_trend f2 data s e := by
  constructor
  · unfold run_simple_trend
    rw [clip_filter_future data s.ord (computeHorizon freq s e).toNat hdata,
      List.map_map]
    rfl
  · intro f2 h
    unfold run_simple_trend
    rw [h]

/-- C10 (witness): the daily-spacing property evaluated with the Weekly
frequency on the concrete series dataEx over the span ordinal 1 to 15. -/
theorem C10_witness :
    (∀ r ∈ dataEx, r.ds ≤ (1 : ℤ)) ∧
      (((run_simple_trend Freq.weekly dataEx ⟨1, 2024, 1⟩ ⟨15, 2024, 1⟩).filter
          (fun r => decide ((1 : ℤ) < r.ds))).map (fun r => r.ds) =
        (List.range
            (computeHorizon Freq.weekly ⟨1, 2024, 1⟩ ⟨15, 2024, 1⟩).toNat).map
          (fun (k : ℕ) => (1 : ℤ) + 1 + (k : ℤ)) ∧
      ∀ f2 : Freq,
        computeHorizon Freq.weekly ⟨1, 2024, 1⟩ ⟨15, 2024, 1⟩ =
            computeHorizon f2 ⟨1, 2024, 1⟩ ⟨15, 2024, 1⟩ →
          run_simple_trend Freq.weekly dataEx ⟨1, 2024, 1⟩ ⟨15, 2024, 1⟩ =
            run_simple_trend f2 dataEx ⟨1, 2024, 1⟩ ⟨15, 2024, 1⟩) :=
  ⟨by decide,
    C10_daily_spacing Freq.weekly dataEx ⟨1, 2024, 1⟩ ⟨15, 2024, 1⟩ (by decide)⟩

end Portfolio
